import Mathlib

/-!
Verification development for the lightburn-auto-align repository.

The Python sources are shallowly embedded in Lean: exact rational
arithmetic over ℚ replaces floating point, exceptions become an explicit
error type inside an Except result, and external effects (the OpenCV
homography solver, the filesystem, the UDP transport) become explicit
parameters. Each raise site of the source is modelled as a distinct
error constructor, named after the error taxonomy of the design
documentation.
-/

namespace LightburnAutoAlign

/-- Errors arising in src/aruco_align.py. Each constructor corresponds to
one failure mode: noHomography is the ValueError "Homography not
calculated yet" guard in transform_point; insufficientMarkers is the
ValueError "Need at least 4 markers ..." raise in calculate_homography
(it records the number of matched correspondences); homographyFailed is
the ValueError "Failed to calculate homography" raise when the solver
returns no matrix; cv2Dispatch models the error OpenCV itself raises when
a call such as cv2.perspectiveTransform receives None in place of a
matrix. -/
inductive AlignError where
  | noHomography : AlignError
  | insufficientMarkers : Nat → AlignError
  | homographyFailed : AlignError
  | cv2Dispatch : AlignError
  deriving DecidableEq, Repr

/-- A 3×3 matrix of exact rationals, the embedding of the homography
matrices that the source keeps as numpy float arrays. -/
abbrev M3 : Type := Matrix (Fin 3) (Fin 3) ℚ

/-- Embedding of cv2.perspectiveTransform applied to a single point: the
point is lifted to homogeneous coordinates, multiplied by the matrix, and
divided by the third coordinate. OpenCV scales the result by 1/w when
w is nonzero and by 0 otherwise, so a point with vanishing homogeneous
coordinate is mapped to the origin. -/
def persTransform (H : M3) (p : ℚ × ℚ) : ℚ × ℚ :=
  let u := Matrix.mulVec H ![p.1, p.2, 1]
  if u 2 = 0 then (0, 0) else (u 0 / u 2, u 1 / u 2)

/-- Embedding of np.linalg.inv on a 3×3 matrix (used by DesignPlacer to
map a clicked pixel back to mm): the classical adjugate formula, which
agrees with Mathlib's matrix inverse. -/
def inv3 (H : M3) : M3 := H.det⁻¹ • H.adjugate

/-- Embedding of ArucoAligner.transform_point. The aligner's
self.homography field (None until calculate_homography ran) is passed
explicitly. The source first checks the field for None and raises
ValueError("Homography not calculated yet"), then applies
cv2.perspectiveTransform. -/
def transform_point (homography : Option M3) (p : ℚ × ℚ) :
    Except AlignError (ℚ × ℚ) :=
  match homography with
  | none => .error .noHomography
  | some H => .ok (persTransform H p)

/-- Embedding of ArucoAligner.transform_rect. The source builds the four
corner points (x,y), (x+w,y), (x+w,y+h), (x,y+h) and hands them to
cv2.perspectiveTransform together with self.homography, with no None
check of its own: when the homography is unset, the OpenCV call itself
fails on the None matrix, which is modelled by the cv2Dispatch error. -/
def transform_rect (homography : Option M3) (r : ℚ × ℚ × ℚ × ℚ) :
    Except AlignError (List (ℚ × ℚ)) :=
  match homography, r with
  | none, _ => .error .cv2Dispatch
  | some H, (x, y, w, h) =>
    .ok [persTransform H (x, y),
         persTransform H (x + w, y),
         persTransform H (x + w, y + h),
         persTransform H (x, y + h)]

/-- Embedding of the correspondence-building loop of
ArucoAligner.calculate_homography (the for loop over
jig_config markers): every configured marker id that is present in the
detected set contributes the pair (position_mm, detected pixel centre),
and a configured id absent from the detected set is skipped. Markers are
the (id, position_mm) entries of the jig config in file order; detected
is the detected marker map as an association list. -/
def buildCorrespondences (markers : List (Nat × (ℚ × ℚ)))
    (detected : List (Nat × (ℚ × ℚ))) : List ((ℚ × ℚ) × (ℚ × ℚ)) :=
  markers.filterMap fun m => (detected.lookup m.1).map fun d => (m.2, d)

/-- Embedding of ArucoAligner.calculate_homography. The cv2.findHomography
call (an external library routine, RANSAC with a 5 px reprojection
threshold) is an abstract solver parameter findH that may fail; the
source raises when fewer than 4 correspondences were matched, and raises
a different error when the solver returns None. -/
def calculate_homography (markers : List (Nat × (ℚ × ℚ)))
    (detected : List (Nat × (ℚ × ℚ)))
    (findH : List ((ℚ × ℚ) × (ℚ × ℚ)) → Option M3) : Except AlignError M3 :=
  let corrs := buildCorrespondences markers detected
  if corrs.length < 4 then .error (.insufficientMarkers corrs.length)
  else
    match findH corrs with
    | none => .error .homographyFailed
    | some H => .ok H

/-- Real-number embedding of np.arctan2: the angle of the vector (x, y),
in radians, in the interval (-π, π]. The signed-zero distinctions of IEEE
arithmetic do not exist over ℝ; np.arctan2(0, 0) is 0. -/
noncomputable def atan2 (y x : ℝ) : ℝ :=
  if 0 < x then Real.arctan (y / x)
  else if x < 0 then
    (if 0 ≤ y then Real.arctan (y / x) + Real.pi
     else Real.arctan (y / x) - Real.pi)
  else
    (if 0 < y then Real.pi / 2 else if y < 0 then -(Real.pi / 2) else 0)

/-- Euclidean distance between two rational pixel points, as a real
number: the embedding of np.linalg.norm of the difference. -/
noncomputable def normPx (a b : ℚ × ℚ) : ℝ :=
  Real.sqrt (((a.1 - b.1 : ℚ) : ℝ) ^ 2 + ((a.2 - b.2 : ℚ) : ℝ) ^ 2)

/-- The alignment result dictionary built by
ArucoAligner.calculate_alignment_for_design. Corner, centre and rect
coordinates stay exact rationals; the angle and the edge lengths involve
arctan and square roots and live in ℝ. -/
structure AlignmentResult where
  design_rect_mm : ℚ × ℚ × ℚ × ℚ
  center_px : ℚ × ℚ
  corners_px : List (ℚ × ℚ)
  angle_deg : ℝ
  size_px : ℝ × ℝ
  image_size : Nat × Nat

/-- Embedding of ArucoAligner.calculate_alignment_for_design: transform
the four design corners through transform_rect, take the arithmetic mean
of the corners as the centre, the direction of the bottom edge
(bottom-right minus bottom-left, np.arctan2 converted to degrees) as the
angle, and the Euclidean lengths of the bottom and left edges as the
size. The image_size of the camera snapshot is passed explicitly. -/
noncomputable def calculate_alignment_for_design (homography : Option M3)
    (image_size : Nat × Nat) (design_rect_mm : ℚ × ℚ × ℚ × ℚ) :
    Except AlignError AlignmentResult :=
  match transform_rect homography design_rect_mm with
  | .error e => .error e
  | .ok corners_px =>
    let bottom_left := corners_px[0]!
    let bottom_right := corners_px[1]!
    let top_right := corners_px[2]!
    let top_left := corners_px[3]!
    let center_px :=
      ((bottom_left.1 + bottom_right.1 + top_right.1 + top_left.1) / 4,
       (bottom_left.2 + bottom_right.2 + top_right.2 + top_left.2) / 4)
    let angle_rad : ℝ :=
      atan2 ((bottom_right.2 - bottom_left.2 : ℚ) : ℝ)
            ((bottom_right.1 - bottom_left.1 : ℚ) : ℝ)
    let angle_deg := angle_rad * 180 / Real.pi
    let width_px := normPx bottom_right bottom_left
    let height_px := normPx top_left bottom_left
    .ok { design_rect_mm := design_rect_mm
          center_px := center_px
          corners_px := corners_px
          angle_deg := angle_deg
          size_px := (width_px, height_px)
          image_size := image_size }

/-- Errors arising in src/design_warp.py: missingDesign is the
ValueError "No design loaded" raise, unsupportedFormat the
ValueError "Unsupported format" raise (recording the offending format
string). -/
inductive WarpError where
  | missingDesign : WarpError
  | unsupportedFormat : String → WarpError
  deriving DecidableEq, Repr

/-- Embedding of the Python builtin int() applied to a (here exact
rational) float value: truncation toward zero. -/
def pythonInt (x : ℚ) : ℤ := if 0 ≤ x then ⌊x⌋ else ⌈x⌉

/-- Embedding of the Python str.lower() method on the ASCII command and
format strings handled here. -/
def pyLower (s : String) : String := String.mk (s.data.map Char.toLower)

/-- A loaded pixel buffer; the verified claims depend only on its
dimensions, so the pixel contents are not carried. -/
structure DesignImage where
  width : Nat
  height : Nat
  deriving DecidableEq, Repr

/-- State of a DesignWarper instance: the alignment_data dictionary is
carried as its design_rect_mm entry, the only part export_for_lightburn
reads; dpi and px_per_mm are the fields set in the constructor;
design_image and warped_design start out None. -/
structure DesignWarper where
  alignment_data : ℚ × ℚ × ℚ × ℚ
  dpi : ℚ
  px_per_mm : ℚ
  design_image : Option DesignImage
  warped_design : Option DesignImage
  deriving DecidableEq, Repr

/-- Embedding of DesignWarper.__init__: stores the alignment data and
dpi and derives px_per_mm = dpi / 25.4. -/
def DesignWarper.init (alignment_data : ℚ × ℚ × ℚ × ℚ) (dpi : ℚ) :
    DesignWarper :=
  { alignment_data := alignment_data
    dpi := dpi
    px_per_mm := dpi / 25.4
    design_image := none
    warped_design := none }

/-- Embedding of DesignWarper.load_design: the source reads the design
file from disk (raising on SVG input or an unreadable file) and stores
the decoded pixel buffer in self.design_image; the successfully loaded
buffer is passed in here directly. -/
def load_design (st : DesignWarper) (img : DesignImage) : DesignWarper :=
  { st with design_image := some img }

/-- Embedding of DesignWarper.export_for_lightburn. The source raises if
no design is loaded, reads width/height in mm from
alignment_data design_rect_mm, computes the pixel size as
int(mm * px_per_mm) for each axis, resizes the design into a fresh
buffer of that size, and dispatches on format.lower() between the png
and svg encoders, raising on any other format. It assigns no attribute
of self, so the resulting state is the input state; the returned pair is
the pixel dimensions (width_px, height_px) of the exported buffer. -/
def export_for_lightburn (st : DesignWarper) (format : String) :
    Except WarpError (DesignWarper × ℤ × ℤ) :=
  match st.design_image with
  | none => .error .missingDesign
  | some _ =>
    let width_mm := st.alignment_data.2.2.1
    let height_mm := st.alignment_data.2.2.2
    let width_px := pythonInt (width_mm * st.px_per_mm)
    let height_px := pythonInt (height_mm * st.px_per_mm)
    if pyLower format = "png" then .ok (st, width_px, height_px)
    else if pyLower format = "svg" then .ok (st, width_px, height_px)
    else .error (.unsupportedFormat format)

/-- Substring test on character lists: true when needle occurs
contiguously inside hay. -/
def strContains (hay needle : List Char) : Bool :=
  match hay with
  | [] => needle.isEmpty
  | _ :: t => needle.isPrefixOf hay || strContains t needle

/-- Embedding of the Python expression needle in hay for strings: the
case-sensitive contiguous-substring test. -/
def pyIn (needle hay : String) : Bool := strContains hay.toList needle.toList

/-- Embedding of LightBurnController.ping. The UDP transport
(send_command, returning the reply string or None on timeout) is the
abstract parameter net; success is reply is not None and the reply
contains the substring OK. -/
def ping (net : String → Option String) : Bool :=
  match net "PING" with
  | none => false
  | some r => pyIn "OK" r

/-- Embedding of LightBurnController.start_job: sends START and tests
the reply for the substring OK. -/
def start_job (net : String → Option String) : Bool :=
  match net "START" with
  | none => false
  | some r => pyIn "OK" r

/-- Embedding of LightBurnController.close_file: sends FORCECLOSE when
force else CLOSE, and tests the reply for the substring OK. -/
def close_file (net : String → Option String) (force : Bool) : Bool :=
  match net (if force then "FORCECLOSE" else "CLOSE") with
  | none => false
  | some r => pyIn "OK" r

/-- The filesystem as seen by load_file: Path.resolve (making the path
absolute) and Path.exists on the resolved path. -/
structure FileSys where
  resolve : String → String
  pathExists : String → Bool

/-- Embedding of LightBurnController.load_file. The source resolves the
path, returns False immediately (sending nothing) when the resolved path
does not exist, and otherwise sends FORCELOAD: or LOADFILE: followed by
the URI file:// plus the resolved path, succeeding iff the reply
contains OK. The first component of the result lists the commands sent
over the transport, in order. -/
def load_file (fs : FileSys) (net : String → Option String)
    (file_path : String) (force : Bool) : List String × Bool :=
  let resolved := fs.resolve file_path
  if fs.pathExists resolved = false then ([], false)
  else
    let file_uri := "file://" ++ resolved
    let command :=
      if force then "FORCELOAD:" ++ file_uri else "LOADFILE:" ++ file_uri
    ([command],
     match net command with
     | none => false
     | some r => pyIn "OK" r)

/-- The executable substring test agrees with the contiguous-substring
relation List.IsInfix. -/
theorem strContains_iff_infix (hay needle : List Char) :
    strContains hay needle = true ↔ needle <:+: hay := by
  induction hay with
  | nil => simp [strContains, List.isEmpty_iff, List.infix_nil]
  | cons a t ih => simp [strContains, List.infix_cons_iff, ih]

/-- Association-list lookup with duplicate-free keys finds exactly the
pairs of the list. -/
theorem lookup_mem_iff {β : Type} {l : List (Nat × β)} {a : Nat} {b : β}
    (hnd : (l.map Prod.fst).Nodup) : l.lookup a = some b ↔ (a, b) ∈ l := by
  induction l with
  | nil => simp
  | cons p t ih =>
    obtain ⟨k, v⟩ := p
    simp only [List.map_cons, List.nodup_cons, List.mem_map] at hnd
    obtain ⟨hk, hnd'⟩ := hnd
    by_cases hak : a = k
    · subst hak
      simp only [List.lookup_cons, beq_self_eq_true, List.mem_cons, Prod.mk.injEq,
        true_and, Option.some.injEq]
      constructor
      · intro hb; exact Or.inl hb.symm
      · rintro (rfl | hmem)
        · rfl
        · exact absurd ⟨(a, b), hmem, rfl⟩ hk
    · have hbeq : (a == k) = false := beq_false_of_ne hak
      simp only [List.lookup_cons, hbeq, List.mem_cons, Prod.mk.injEq]
      rw [ih hnd']
      constructor
      · intro hmem; exact Or.inr hmem
      · rintro (⟨rfl, _⟩ | hmem)
        · exact absurd rfl hak
        · exact hmem

/-- C2: with fewer than 4 matched mm/pixel correspondences,
calculate_homography fails with the insufficient-markers error (the
ValueError raised at the four-marker check) and never returns a matrix;
equivalently, a normal return means at least 4 correspondences were
supplied to the solver. -/
theorem calculate_homography_insufficient_markers
    (markers detected : List (Nat × (ℚ × ℚ)))
    (findH : List ((ℚ × ℚ) × (ℚ × ℚ)) → Option M3)
    (h : (buildCorrespondences markers detected).length < 4) :
    calculate_homography markers detected findH =
      .error (.insufficientMarkers (buildCorrespondences markers detected).length) ∧
    ∀ H, calculate_homography markers detected findH ≠ .ok H := by
  have h1 : calculate_homography markers detected findH =
      .error (.insufficientMarkers (buildCorrespondences markers detected).length) := by
    unfold calculate_homography
    simp [h]
  refine ⟨h1, fun H hH => ?_⟩
  rw [h1] at hH
  exact Except.noConfusion hH

/-- Witness for C2 at a jig with four configured markers of which only
two were detected. -/
theorem calculate_homography_insufficient_markers_witness :
    (buildCorrespondences
        [(0, ((0 : ℚ), (0 : ℚ))), (1, (100, 0)), (2, (100, 100)), (3, (0, 100))]
        [(0, ((5 : ℚ), (5 : ℚ))), (1, (900, 7))]).length < 4 ∧
    (calculate_homography
        [(0, ((0 : ℚ), (0 : ℚ))), (1, (100, 0)), (2, (100, 100)), (3, (0, 100))]
        [(0, ((5 : ℚ), (5 : ℚ))), (1, (900, 7))] (fun _ => none) =
      .error (.insufficientMarkers (buildCorrespondences
        [(0, ((0 : ℚ), (0 : ℚ))), (1, (100, 0)), (2, (100, 100)), (3, (0, 100))]
        [(0, ((5 : ℚ), (5 : ℚ))), (1, (900, 7))]).length) ∧
    ∀ H, calculate_homography
        [(0, ((0 : ℚ), (0 : ℚ))), (1, (100, 0)), (2, (100, 100)), (3, (0, 100))]
        [(0, ((5 : ℚ), (5 : ℚ))), (1, (900, 7))] (fun _ => none) ≠ .ok H) :=
  ⟨by decide, calculate_homography_insufficient_markers _ _ _ (by decide)⟩

/-- C5: transform_rect on (x, y, w, h) returns exactly the four
individually transformed corner points, in the order bottom-left,
bottom-right, top-right, top-left — the very points transform_point
produces, never an axis-aligned bounding box of them. -/
theorem transform_rect_four_corners (H : M3) (x y w h : ℚ) :
    ∃ c1 c2 c3 c4,
      transform_rect (some H) (x, y, w, h) = .ok [c1, c2, c3, c4] ∧
      transform_point (some H) (x, y) = .ok c1 ∧
      transform_point (some H) (x + w, y) = .ok c2 ∧
      transform_point (some H) (x + w, y + h) = .ok c3 ∧
      transform_point (some H) (x, y + h) = .ok c4 :=
  ⟨_, _, _, _, rfl, rfl, rfl, rfl, rfl⟩

/-- C6: invoked before a homography is set, transform_point fails with
the no-homography guard error, but transform_rect has no such guard: it
hands the missing matrix to cv2.perspectiveTransform and fails with an
unrelated OpenCV-level error instead. -/
theorem transform_rect_none_guard_missing :
    transform_point none ((0 : ℚ), (0 : ℚ)) = .error .noHomography ∧
    transform_rect none ((0 : ℚ), (0 : ℚ), (10 : ℚ), (10 : ℚ)) =
      .error .cv2Dispatch ∧
    AlignError.cv2Dispatch ≠ AlignError.noHomography :=
  ⟨rfl, rfl, by decide⟩

/-- C7: for the device-control commands whose contract is
success-iff-OK (PING, LOADFILE/FORCELOAD on an existing file, START,
CLOSE/FORCECLOSE), the operation returns true exactly when a reply
arrived and the reply contains the case-sensitive substring OK; a
timeout or any other reply yields the failure value false of the
total Bool-valued operation. -/
theorem command_success_iff_ok_reply
    (net : String → Option String) (fs : FileSys) (path : String) (force : Bool)
    (hex : fs.pathExists (fs.resolve path) = true) :
    (ping net = true ↔
      ∃ r, net "PING" = some r ∧ "OK".toList <:+: r.toList) ∧
    (start_job net = true ↔
      ∃ r, net "START" = some r ∧ "OK".toList <:+: r.toList) ∧
    (close_file net force = true ↔
      ∃ r, net (if force then "FORCECLOSE" else "CLOSE") = some r ∧
        "OK".toList <:+: r.toList) ∧
    ((load_file fs net path force).2 = true ↔
      ∃ r, net ((if force then "FORCELOAD:" else "LOADFILE:") ++
          ("file://" ++ fs.resolve path)) = some r ∧
        "OK".toList <:+: r.toList) := by
  refine ⟨?_, ?_, ?_, ?_⟩
  · unfold ping
    cases hr : net "PING" with
    | none => simp [hr]
    | some r => simp [hr, pyIn, strContains_iff_infix]
  · unfold start_job
    cases hr : net "START" with
    | none => simp [hr]
    | some r => simp [hr, pyIn, strContains_iff_infix]
  · unfold close_file
    cases hr : net (if force then "FORCECLOSE" else "CLOSE") with
    | none => simp [hr]
    | some r => simp [hr, pyIn, strContains_iff_infix]
  · unfold load_file
    simp only [hex, Bool.true_eq_false, if_false]
    cases force with
    | false =>
      cases hr : net ("LOADFILE:" ++ ("file://" ++ fs.resolve path)) with
      | none => simp [hr]
      | some r => simp [hr, pyIn, strContains_iff_infix]
    | true =>
      cases hr : net ("FORCELOAD:" ++ ("file://" ++ fs.resolve path)) with
      | none => simp [hr]
      | some r => simp [hr, pyIn, strContains_iff_infix]

/-- Witness for C7 over a transport that never replies and a filesystem
on which the requested path exists. -/
theorem command_success_iff_ok_reply_witness :
    (FileSys.mk (fun s => s) (fun _ => true)).pathExists
      ((FileSys.mk (fun s => s) (fun _ => true)).resolve "out.png") = true ∧
    ((ping (fun _ => none) = true ↔
      ∃ r, (fun (_ : String) => (none : Option String)) "PING" = some r ∧
        "OK".toList <:+: r.toList) ∧
    (start_job (fun _ => none) = true ↔
      ∃ r, (fun (_ : String) => (none : Option String)) "START" = some r ∧
        "OK".toList <:+: r.toList) ∧
    (close_file (fun _ => none) false = true ↔
      ∃ r, (fun (_ : String) => (none : Option String))
          (if false then "FORCECLOSE" else "CLOSE") = some r ∧
        "OK".toList <:+: r.toList) ∧
    ((load_file (FileSys.mk (fun s => s) (fun _ => true)) (fun _ => none)
        "out.png" false).2 = true ↔
      ∃ r, (fun (_ : String) => (none : Option String))
          ((if false then "FORCELOAD:" else "LOADFILE:") ++
            ("file://" ++ (FileSys.mk (fun s => s) (fun _ => true)).resolve
              "out.png")) = some r ∧
        "OK".toList <:+: r.toList)) :=
  ⟨rfl, command_success_iff_ok_reply (fun _ => none)
    (FileSys.mk (fun s => s) (fun _ => true)) "out.png" false rfl⟩

/-- C9: load_file on a path whose resolved form does not exist returns
False and sends nothing over the transport, for either value of the
force flag; when the resolved path exists, the single command sent is
FORCELOAD or LOADFILE applied to the URI built from the prefix file://
and the resolved path. -/
theorem load_file_existence_and_uri (fs : FileSys)
    (net : String → Option String) (file_path : String) (force : Bool) :
    (fs.pathExists (fs.resolve file_path) = false →
      load_file fs net file_path force = ([], false)) ∧
    (fs.pathExists (fs.resolve file_path) = true →
      (load_file fs net file_path force).1 =
        [(if force then "FORCELOAD:" else "LOADFILE:") ++
          ("file://" ++ fs.resolve file_path)]) := by
  constructor
  · intro h
    unfold load_file
    simp [h]
  · intro h
    unfold load_file
    simp only [h, Bool.true_eq_false, if_false]
    cases force <;> simp

/-- Witness for C9: a missing file yields no traffic and False; an
existing file yields exactly the FORCELOAD command with the file URI. -/
theorem load_file_existence_and_uri_witness :
    load_file (FileSys.mk (fun s => s) (fun _ => false)) (fun _ => some "OK")
      "design.png" true = ([], false) ∧
    (load_file (FileSys.mk (fun s => s) (fun _ => true)) (fun _ => some "OK")
      "design.png" true).1 =
      [(if (true : Bool) then "FORCELOAD:" else "LOADFILE:") ++
        ("file://" ++ (FileSys.mk (fun s => s) (fun _ => true)).resolve
          "design.png")] :=
  ⟨(load_file_existence_and_uri _ _ _ _).1 rfl,
   (load_file_existence_and_uri _ _ _ _).2 rfl⟩

/-- C10: export_for_lightburn mutates no warper state: a successful
export returns the input state unchanged (design_image, alignment_data
and dpi included), and repeating the export on that state reproduces the
identical result, pixel dimensions included. -/
theorem export_for_lightburn_state_frame (st : DesignWarper) (format : String)
    (st' : DesignWarper) (dims : ℤ × ℤ)
    (h : export_for_lightburn st format = .ok (st', dims)) :
    st' = st ∧ st'.design_image = st.design_image ∧
    st'.alignment_data = st.alignment_data ∧ st'.dpi = st.dpi ∧
    export_for_lightburn st' format = .ok (st', dims) := by
  obtain ⟨dw, dh⟩ := dims
  unfold export_for_lightburn at h
  cases hdi : st.design_image with
  | none => rw [hdi] at h; exact Except.noConfusion h
  | some img =>
    rw [hdi] at h
    split_ifs at h with hpng hsvg
    · simp only [Except.ok.injEq, Prod.mk.injEq] at h
      obtain ⟨rfl, rfl, rfl⟩ := h
      refine ⟨rfl, hdi, rfl, rfl, ?_⟩
      unfold export_for_lightburn
      rw [hdi]
      simp [hpng]
    · simp only [Except.ok.injEq, Prod.mk.injEq] at h
      obtain ⟨rfl, rfl, rfl⟩ := h
      refine ⟨rfl, hdi, rfl, rfl, ?_⟩
      unfold export_for_lightburn
      rw [hdi]
      simp [hpng, hsvg]

/-- Witness for C10 at a warper holding a 10×20 mm design at 300 dpi. -/
theorem export_for_lightburn_state_frame_witness :
    export_for_lightburn
      (DesignWarper.mk (0, 0, 10, 20) 300 (300 / 25.4)
        (some (DesignImage.mk 100 200)) none) "png" =
      .ok (DesignWarper.mk (0, 0, 10, 20) 300 (300 / 25.4)
        (some (DesignImage.mk 100 200)) none, 118, 236) ∧
    ((DesignWarper.mk (0, 0, 10, 20) 300 (300 / 25.4)
        (some (DesignImage.mk 100 200)) none : DesignWarper) =
      DesignWarper.mk (0, 0, 10, 20) 300 (300 / 25.4)
        (some (DesignImage.mk 100 200)) none ∧
      (DesignWarper.mk (0, 0, 10, 20) 300 (300 / 25.4)
        (some (DesignImage.mk 100 200)) none).design_image =
        (DesignWarper.mk (0, 0, 10, 20) 300 (300 / 25.4)
          (some (DesignImage.mk 100 200)) none).design_image ∧
      (DesignWarper.mk (0, 0, 10, 20) 300 (300 / 25.4)
        (some (DesignImage.mk 100 200)) none).alignment_data =
        (DesignWarper.mk (0, 0, 10, 20) 300 (300 / 25.4)
          (some (DesignImage.mk 100 200)) none).alignment_data ∧
      (DesignWarper.mk (0, 0, 10, 20) 300 (300 / 25.4)
        (some (DesignImage.mk 100 200)) none).dpi =
        (DesignWarper.mk (0, 0, 10, 20) 300 (300 / 25.4)
          (some (DesignImage.mk 100 200)) none).dpi ∧
      export_for_lightburn
        (DesignWarper.mk (0, 0, 10, 20) 300 (300 / 25.4)
          (some (DesignImage.mk 100 200)) none) "png" =
        .ok (DesignWarper.mk (0, 0, 10, 20) 300 (300 / 25.4)
          (some (DesignImage.mk 100 200)) none, 118, 236)) :=
  have h0 : export_for_lightburn
      (DesignWarper.mk (0, 0, 10, 20) 300 (300 / 25.4)
        (some (DesignImage.mk 100 200)) none) "png" =
      .ok (DesignWarper.mk (0, 0, 10, 20) 300 (300 / 25.4)
        (some (DesignImage.mk 100 200)) none, 118, 236) := by
    unfold export_for_lightburn
    norm_num [pythonInt, (by decide : pyLower "png" = "png")]
  ⟨h0, export_for_lightburn_state_frame _ _ _ _ h0⟩

/-- Counterexample to C1 as stated: at design size 10.05 mm and
dpi 300, the exported pixel dimension is int(10.05 × 300 / 25.4) = 118,
while nearest-integer rounding gives round(118.70…) = 119. -/
theorem export_pixel_dims_not_nearest_rounding :
    export_for_lightburn
      (load_design (DesignWarper.init (0, 0, 201 / 20, 201 / 20) 300)
        (DesignImage.mk 500 500)) "png" =
      .ok (load_design (DesignWarper.init (0, 0, 201 / 20, 201 / 20) 300)
        (DesignImage.mk 500 500), 118, 118) ∧
    round ((201 / 20 : ℚ) * 300 / 25.4) = (119 : ℤ) ∧
    ((118 : ℤ) ≠ 119) := by
  refine ⟨?_, ?_, by decide⟩
  · unfold export_for_lightburn load_design DesignWarper.init
    norm_num [pythonInt, (by decide : pyLower "png" = "png")]
  · rw [round_eq]
    norm_num

/-- Bounds for the truncated pixel count: the floor of w·dpi/25.4 loses
less than one pixel, so re-deriving mm from the pixel count loses less
than 25.4/dpi mm. -/
theorem floor_scale_bounds (w dpi : ℚ) (hdpi : 0 < dpi) :
    0 ≤ w - (⌊w * dpi / 25.4⌋ : ℚ) / dpi * 25.4 ∧
    w - (⌊w * dpi / 25.4⌋ : ℚ) / dpi * 25.4 < 25.4 / dpi := by
  have h254 : (0 : ℚ) < 25.4 := by norm_num
  have hfl : (⌊w * dpi / 25.4⌋ : ℚ) ≤ w * dpi / 25.4 := Int.floor_le _
  have hfu : w * dpi / 25.4 < (⌊w * dpi / 25.4⌋ : ℚ) + 1 :=
    Int.lt_floor_add_one _
  have hl : (⌊w * dpi / 25.4⌋ : ℚ) * 25.4 ≤ w * dpi := (le_div_iff₀ h254).mp hfl
  have hu : w * dpi < ((⌊w * dpi / 25.4⌋ : ℚ) + 1) * 25.4 :=
    (div_lt_iff₀ h254).mp hfu
  constructor
  · rw [sub_nonneg, div_mul_eq_mul_div, div_le_iff₀ hdpi]
    linarith
  · have key : (25.4 : ℚ) / dpi + (⌊w * dpi / 25.4⌋ : ℚ) / dpi * 25.4 =
        ((⌊w * dpi / 25.4⌋ : ℚ) + 1) * 25.4 / dpi := by
      field_simp
      ring
    rw [sub_lt_iff_lt_add, key, lt_div_iff₀ hdpi]
    linarith

/-- C1 amended: for nonnegative design dimensions and positive dpi, the
exported pixel dimensions equal the Python int() truncation (the floor)
of mm × dpi / 25.4, not its nearest rounding; re-deriving mm as
pixel / dpi × 25.4 under-reproduces the original dimension by less than
25.4/dpi mm, which is within 0.1 mm whenever dpi ≥ 254 — in particular
for the supported 300 and 600 dpi configurations. -/
theorem export_pixel_dims_floor (ad : ℚ × ℚ × ℚ × ℚ) (dpi : ℚ)
    (img : DesignImage) (format : String) (hdpi : 0 < dpi)
    (hw : 0 ≤ ad.2.2.1) (hh : 0 ≤ ad.2.2.2)
    (hfmt : pyLower format = "png" ∨ pyLower format = "svg") :
    ∃ wpx hpx : ℤ,
      export_for_lightburn (load_design (DesignWarper.init ad dpi) img)
          format =
        .ok (load_design (DesignWarper.init ad dpi) img, wpx, hpx) ∧
      wpx = ⌊ad.2.2.1 * dpi / 25.4⌋ ∧ hpx = ⌊ad.2.2.2 * dpi / 25.4⌋ ∧
      0 ≤ ad.2.2.1 - (wpx : ℚ) / dpi * 25.4 ∧
      ad.2.2.1 - (wpx : ℚ) / dpi * 25.4 < 25.4 / dpi ∧
      0 ≤ ad.2.2.2 - (hpx : ℚ) / dpi * 25.4 ∧
      ad.2.2.2 - (hpx : ℚ) / dpi * 25.4 < 25.4 / dpi ∧
      (254 ≤ dpi →
        ad.2.2.1 - (wpx : ℚ) / dpi * 25.4 ≤ 1 / 10 ∧
        ad.2.2.2 - (hpx : ℚ) / dpi * 25.4 ≤ 1 / 10) := by
  have h254 : (0 : ℚ) < 25.4 := by norm_num
  have hxw : 0 ≤ ad.2.2.1 * (dpi / 25.4) :=
    mul_nonneg hw (le_of_lt (div_pos hdpi h254))
  have hxh : 0 ≤ ad.2.2.2 * (dpi / 25.4) :=
    mul_nonneg hh (le_of_lt (div_pos hdpi h254))
  have hpw : pythonInt (ad.2.2.1 * (dpi / 25.4)) = ⌊ad.2.2.1 * dpi / 25.4⌋ := by
    rw [pythonInt, if_pos hxw, mul_div_assoc]
  have hph : pythonInt (ad.2.2.2 * (dpi / 25.4)) = ⌊ad.2.2.2 * dpi / 25.4⌋ := by
    rw [pythonInt, if_pos hxh, mul_div_assoc]
  refine ⟨⌊ad.2.2.1 * dpi / 25.4⌋, ⌊ad.2.2.2 * dpi / 25.4⌋, ?_, rfl, rfl, ?_⟩
  · unfold export_for_lightburn load_design DesignWarper.init
    rcases hfmt with hfmt | hfmt
    · simp [hfmt, hpw, hph]
    · simp [hfmt, hpw, hph]
  · obtain ⟨hw0, hw1⟩ := floor_scale_bounds ad.2.2.1 dpi hdpi
    obtain ⟨hh0, hh1⟩ := floor_scale_bounds ad.2.2.2 dpi hdpi
    have hcap : 254 ≤ dpi → (25.4 : ℚ) / dpi ≤ 1 / 10 := by
      intro hd
      rw [div_le_div_iff₀ hdpi (by norm_num : (0 : ℚ) < 10)]
      linarith
    exact ⟨hw0, hw1, hh0, hh1, fun hd =>
      ⟨le_of_lt (lt_of_lt_of_le hw1 (hcap hd)),
       le_of_lt (lt_of_lt_of_le hh1 (hcap hd))⟩⟩

/-- Witness for the amended C1 at a 10×20 mm design exported at 300
dpi. -/
theorem export_pixel_dims_floor_witness :
    (0 : ℚ) < 300 ∧ (0 : ℚ) ≤ (((0 : ℚ), (0 : ℚ), (10 : ℚ), (20 : ℚ))).2.2.1 ∧
    (0 : ℚ) ≤ (((0 : ℚ), (0 : ℚ), (10 : ℚ), (20 : ℚ))).2.2.2 ∧
    (pyLower "png" = "png" ∨ pyLower "png" = "svg") ∧
    (∃ wpx hpx : ℤ,
      export_for_lightburn
          (load_design (DesignWarper.init ((0 : ℚ), (0 : ℚ), (10 : ℚ), (20 : ℚ)) 300)
            (DesignImage.mk 3 4)) "png" =
        .ok (load_design (DesignWarper.init ((0 : ℚ), (0 : ℚ), (10 : ℚ), (20 : ℚ)) 300)
          (DesignImage.mk 3 4), wpx, hpx) ∧
      wpx = ⌊(((0 : ℚ), (0 : ℚ), (10 : ℚ), (20 : ℚ))).2.2.1 * 300 / 25.4⌋ ∧
      hpx = ⌊(((0 : ℚ), (0 : ℚ), (10 : ℚ), (20 : ℚ))).2.2.2 * 300 / 25.4⌋ ∧
      0 ≤ (((0 : ℚ), (0 : ℚ), (10 : ℚ), (20 : ℚ))).2.2.1 - (wpx : ℚ) / 300 * 25.4 ∧
      (((0 : ℚ), (0 : ℚ), (10 : ℚ), (20 : ℚ))).2.2.1 - (wpx : ℚ) / 300 * 25.4 < 25.4 / 300 ∧
      0 ≤ (((0 : ℚ), (0 : ℚ), (10 : ℚ), (20 : ℚ))).2.2.2 - (hpx : ℚ) / 300 * 25.4 ∧
      (((0 : ℚ), (0 : ℚ), (10 : ℚ), (20 : ℚ))).2.2.2 - (hpx : ℚ) / 300 * 25.4 < 25.4 / 300 ∧
      ((254 : ℚ) ≤ 300 →
        (((0 : ℚ), (0 : ℚ), (10 : ℚ), (20 : ℚ))).2.2.1 - (wpx : ℚ) / 300 * 25.4 ≤ 1 / 10 ∧
        (((0 : ℚ), (0 : ℚ), (10 : ℚ), (20 : ℚ))).2.2.2 - (hpx : ℚ) / 300 * 25.4 ≤ 1 / 10)) :=
  ⟨by norm_num, by norm_num, by norm_num, Or.inl (by decide),
   export_pixel_dims_floor ((0 : ℚ), (0 : ℚ), (10 : ℚ), (20 : ℚ)) 300
     (DesignImage.mk 3 4) "png" (by norm_num) (by norm_num) (by norm_num)
     (Or.inl (by decide))⟩

/-- C8: the correspondence list contains exactly the pairs for marker
ids present both in the jig configuration and in the detected set
(configured-but-undetected ids are excluded without error); the
insufficient-markers failure occurs precisely when fewer than 4 matched
correspondences remain, and with at least 4 the exclusion causes no
failure: the solver result is returned. -/
theorem correspondences_matched_iff (markers detected : List (Nat × (ℚ × ℚ)))
    (findH : List ((ℚ × ℚ) × (ℚ × ℚ)) → Option M3)
    (hnd : (detected.map Prod.fst).Nodup) :
    (∀ pm pp, ((pm, pp) ∈ buildCorrespondences markers detected ↔
      ∃ i, (i, pm) ∈ markers ∧ (i, pp) ∈ detected)) ∧
    (∀ n, calculate_homography markers detected findH =
        .error (.insufficientMarkers n) ↔
      ((buildCorrespondences markers detected).length < 4 ∧
        n = (buildCorrespondences markers detected).length)) ∧
    (4 ≤ (buildCorrespondences markers detected).length →
      ∀ H, findH (buildCorrespondences markers detected) = some H →
        calculate_homography markers detected findH = .ok H) := by
  refine ⟨?_, ?_, ?_⟩
  · intro pm pp
    unfold buildCorrespondences
    simp only [List.mem_filterMap, Option.map_eq_some']
    constructor
    · rintro ⟨⟨i, pos⟩, hmem, d, hlook, heq⟩
      obtain ⟨rfl, rfl⟩ := Prod.mk.inj heq
      exact ⟨i, hmem, (lookup_mem_iff hnd).1 hlook⟩
    · rintro ⟨i, hm, hd⟩
      exact ⟨(i, pm), hm, pp, (lookup_mem_iff hnd).2 hd, rfl⟩
  · intro n
    simp only [calculate_homography]
    by_cases hlt : (buildCorrespondences markers detected).length < 4
    · rw [if_pos hlt]
      simp only [Except.error.injEq, AlignError.insufficientMarkers.injEq]
      constructor
      · intro he; exact ⟨hlt, he.symm⟩
      · intro he; exact he.2.symm
    · rw [if_neg hlt]
      cases hF : findH (buildCorrespondences markers detected) with
      | none => simp [hlt]
      | some H => simp [hlt]
  · intro hge H hF
    unfold calculate_homography
    simp [Nat.not_lt.mpr hge, hF]

/-- Witness for C8 at a jig with five configured markers of which four
were detected (id 7 is configured but undetected and is excluded). -/
theorem correspondences_matched_iff_witness :
    (([(0, ((12 : ℚ), (34 : ℚ))), (1, (56, 7)), (2, (89, 10)),
        (3, (11, 12))] : List (Nat × (ℚ × ℚ))).map Prod.fst).Nodup ∧
    ((∀ pm pp, ((pm, pp) ∈ buildCorrespondences
        [(0, ((0 : ℚ), (0 : ℚ))), (1, (100, 0)), (2, (100, 100)),
          (3, (0, 100)), (7, (50, 50))]
        [(0, ((12 : ℚ), (34 : ℚ))), (1, (56, 7)), (2, (89, 10)), (3, (11, 12))] ↔
      ∃ i, (i, pm) ∈ ([(0, ((0 : ℚ), (0 : ℚ))), (1, (100, 0)), (2, (100, 100)),
          (3, (0, 100)), (7, (50, 50))] : List (Nat × (ℚ × ℚ))) ∧
        (i, pp) ∈ ([(0, ((12 : ℚ), (34 : ℚ))), (1, (56, 7)), (2, (89, 10)),
          (3, (11, 12))] : List (Nat × (ℚ × ℚ))))) ∧
    (∀ n, calculate_homography
        [(0, ((0 : ℚ), (0 : ℚ))), (1, (100, 0)), (2, (100, 100)),
          (3, (0, 100)), (7, (50, 50))]
        [(0, ((12 : ℚ), (34 : ℚ))), (1, (56, 7)), (2, (89, 10)), (3, (11, 12))]
        (fun _ => some 1) = .error (.insufficientMarkers n) ↔
      ((buildCorrespondences
        [(0, ((0 : ℚ), (0 : ℚ))), (1, (100, 0)), (2, (100, 100)),
          (3, (0, 100)), (7, (50, 50))]
        [(0, ((12 : ℚ), (34 : ℚ))), (1, (56, 7)), (2, (89, 10)), (3, (11, 12))]).length < 4 ∧
        n = (buildCorrespondences
        [(0, ((0 : ℚ), (0 : ℚ))), (1, (100, 0)), (2, (100, 100)),
          (3, (0, 100)), (7, (50, 50))]
        [(0, ((12 : ℚ), (34 : ℚ))), (1, (56, 7)), (2, (89, 10)), (3, (11, 12))]).length)) ∧
    (4 ≤ (buildCorrespondences
        [(0, ((0 : ℚ), (0 : ℚ))), (1, (100, 0)), (2, (100, 100)),
          (3, (0, 100)), (7, (50, 50))]
        [(0, ((12 : ℚ), (34 : ℚ))), (1, (56, 7)), (2, (89, 10)), (3, (11, 12))]).length →
      ∀ H, (fun (_ : List ((ℚ × ℚ) × (ℚ × ℚ))) => some (1 : M3))
          (buildCorrespondences
        [(0, ((0 : ℚ), (0 : ℚ))), (1, (100, 0)), (2, (100, 100)),
          (3, (0, 100)), (7, (50, 50))]
        [(0, ((12 : ℚ), (34 : ℚ))), (1, (56, 7)), (2, (89, 10)), (3, (11, 12))]) = some H →
        calculate_homography
        [(0, ((0 : ℚ), (0 : ℚ))), (1, (100, 0)), (2, (100, 100)),
          (3, (0, 100)), (7, (50, 50))]
        [(0, ((12 : ℚ), (34 : ℚ))), (1, (56, 7)), (2, (89, 10)), (3, (11, 12))]
        (fun _ => some 1) = .ok H)) :=
  ⟨by decide, correspondences_matched_iff _ _ _ (by decide)⟩

/-- The explicit adjugate-formula inverse (the embedding of
np.linalg.inv) agrees with Mathlib's matrix inverse. -/
theorem inv3_eq_inv (H : M3) : inv3 H = H⁻¹ := by
  rw [inv3, Matrix.inv_def, Ring.inverse_eq_inv]

/-- C3: for an invertible homography and a mm point whose pixel image is
defined (nonvanishing homogeneous coordinate), mapping mm → pixel with
transform_point and back through the matrix inverse returns the point
exactly, in exact rational arithmetic. -/
theorem transform_point_inverse_roundtrip (H : M3) (p q : ℚ × ℚ)
    (hdet : H.det ≠ 0)
    (hw : Matrix.mulVec H ![p.1, p.2, 1] 2 ≠ 0)
    (hq : transform_point (some H) p = .ok q) :
    persTransform (inv3 H) q = p := by
  simp only [transform_point, Except.ok.injEq] at hq
  subst hq
  set u : Fin 3 → ℚ := Matrix.mulVec H ![p.1, p.2, 1] with hu
  have hpq : persTransform H p = (u 0 / u 2, u 1 / u 2) := by
    rw [persTransform]
    simp only [← hu]
    rw [if_neg hw]
  rw [hpq]
  have key1 : (![u 0 / u 2, u 1 / u 2, 1] : Fin 3 → ℚ) = (u 2)⁻¹ • u := by
    funext i
    fin_cases i <;>
      simp [Pi.smul_apply, smul_eq_mul, div_eq_inv_mul, inv_mul_cancel₀ hw]
  have key2 : Matrix.mulVec (inv3 H) ((u 2)⁻¹ • u) =
      (u 2)⁻¹ • (![p.1, p.2, 1] : Fin 3 → ℚ) := by
    rw [Matrix.mulVec_smul, hu, Matrix.mulVec_mulVec, inv3_eq_inv,
      Matrix.nonsing_inv_mul H (isUnit_iff_ne_zero.mpr hdet),
      Matrix.one_mulVec]
  rw [persTransform]
  simp only [key1, key2]
  have h2 : ((u 2)⁻¹ • (![p.1, p.2, 1] : Fin 3 → ℚ)) 2 = (u 2)⁻¹ := by simp
  rw [if_neg (by rw [h2]; exact inv_ne_zero hw)]
  have h0 : ((u 2)⁻¹ • (![p.1, p.2, 1] : Fin 3 → ℚ)) 0 = (u 2)⁻¹ * p.1 := by
    simp
  have h1 : ((u 2)⁻¹ • (![p.1, p.2, 1] : Fin 3 → ℚ)) 1 = (u 2)⁻¹ * p.2 := by
    simp
  have hne : (u 2)⁻¹ ≠ 0 := inv_ne_zero hw
  rw [h0, h1, h2, mul_div_cancel_left₀ _ hne, mul_div_cancel_left₀ _ hne]

/-- Witness for C3 at the scale-by-2 homography and the point (3, 4),
whose pixel image is (6, 8). -/
theorem transform_point_inverse_roundtrip_witness :
    Matrix.det (!![2, 0, 0; 0, 2, 0; 0, 0, 1] : M3) ≠ 0 ∧
    Matrix.mulVec (!![2, 0, 0; 0, 2, 0; 0, 0, 1] : M3)
      ![((3 : ℚ), (4 : ℚ)).1, ((3 : ℚ), (4 : ℚ)).2, 1] 2 ≠ 0 ∧
    transform_point (some (!![2, 0, 0; 0, 2, 0; 0, 0, 1] : M3))
      ((3 : ℚ), (4 : ℚ)) = .ok ((6 : ℚ), (8 : ℚ)) ∧
    persTransform (inv3 (!![2, 0, 0; 0, 2, 0; 0, 0, 1] : M3))
      ((6 : ℚ), (8 : ℚ)) = ((3 : ℚ), (4 : ℚ)) :=
  have hdet : Matrix.det (!![2, 0, 0; 0, 2, 0; 0, 0, 1] : M3) ≠ 0 := by
    norm_num [Matrix.det_fin_three]
  have hw : Matrix.mulVec (!![2, 0, 0; 0, 2, 0; 0, 0, 1] : M3)
      ![((3 : ℚ), (4 : ℚ)).1, ((3 : ℚ), (4 : ℚ)).2, 1] 2 ≠ 0 := by
    norm_num [Matrix.mulVec, Matrix.dotProduct, Fin.sum_univ_three]
  have hq : transform_point (some (!![2, 0, 0; 0, 2, 0; 0, 0, 1] : M3))
      ((3 : ℚ), (4 : ℚ)) = .ok ((6 : ℚ), (8 : ℚ)) := by
    simp [transform_point, persTransform, Matrix.mulVec, Matrix.dotProduct,
      Fin.sum_univ_three]
    norm_num
  ⟨hdet, hw, hq,
    transform_point_inverse_roundtrip _ ((3 : ℚ), (4 : ℚ))
      ((6 : ℚ), (8 : ℚ)) hdet hw hq⟩

/-- The embedded arctan2 always lies in the interval (-π, π]; the left
end -π is never attained. -/
theorem atan2_range (y x : ℝ) : -Real.pi < atan2 y x ∧ atan2 y x ≤ Real.pi := by
  have hpi := Real.pi_pos
  have h1 := Real.arctan_lt_pi_div_two (y / x)
  have h2 := Real.neg_pi_div_two_lt_arctan (y / x)
  unfold atan2
  split_ifs with hx hx2 hy3 hy4 hy5
  · constructor <;> linarith
  · have hyx : y / x ≤ 0 := div_nonpos_iff.mpr (Or.inl ⟨hy3, le_of_lt hx2⟩)
    have h3 : Real.arctan (y / x) ≤ 0 := by
      have := Real.arctan_strictMono.monotone hyx
      simpa [Real.arctan_zero] using this
    constructor <;> linarith
  · have hyx : 0 < y / x := div_pos_iff.mpr (Or.inr ⟨not_le.mp hy3, hx2⟩)
    have h3 : 0 < Real.arctan (y / x) := by
      have := Real.arctan_strictMono hyx
      simpa [Real.arctan_zero] using this
    constructor <;> linarith
  · constructor <;> linarith
  · constructor <;> linarith
  · constructor <;> linarith

/-- Converted to degrees, the arctan2 angle lies in (-180, 180]. -/
theorem atan2_deg_range (y x : ℝ) :
    -180 < atan2 y x * 180 / Real.pi ∧ atan2 y x * 180 / Real.pi ≤ 180 := by
  obtain ⟨hl, hr⟩ := atan2_range y x
  have hpi := Real.pi_pos
  constructor
  · rw [lt_div_iff₀ hpi]
    nlinarith
  · rw [div_le_iff₀ hpi]
    nlinarith

/-- C4: the alignment angle produced by calculate_alignment_for_design
is exactly np.arctan2 of the bottom-right-minus-bottom-left transformed
corner vector converted to degrees, and it always lies in the range
(-180, 180]: strictly above -180 and at most 180. -/
theorem alignment_angle_atan2_range (H : M3) (image_size : Nat × Nat)
    (x y w h : ℚ) :
    ∃ res c1 c2 c3 c4,
      transform_rect (some H) (x, y, w, h) = .ok [c1, c2, c3, c4] ∧
      calculate_alignment_for_design (some H) image_size (x, y, w, h) =
        .ok res ∧
      res.angle_deg =
        atan2 ((c2.2 - c1.2 : ℚ) : ℝ) ((c2.1 - c1.1 : ℚ) : ℝ) * 180 /
          Real.pi ∧
      -180 < res.angle_deg ∧ res.angle_deg ≤ 180 := by
  refine ⟨_, persTransform H (x, y), persTransform H (x + w, y),
    persTransform H (x + w, y + h), persTransform H (x, y + h),
    rfl, rfl, rfl, ?_, ?_⟩
  · exact (atan2_deg_range _ _).1
  · exact (atan2_deg_range _ _).2

end LightburnAutoAlign
